import Mathlib

/-!
Verification development for the foundation-xml-fhir converter.

The repository source under review is `src/convert.py`, the report-conversion
driver.  The coordinate-resolution core (`utils.parse_hgvs`, together with the
annotation index and reference-sequence accessor it uses) is part of the
repository but its source file is not present here; those components are
modelled from the specification (each such definition carries a doc comment
starting with `Modelled from the spec:`).  Everything in the `Convert`
namespace below `-- DRIVER` is translated directly from `src/convert.py`.
-/

namespace Convert

/-- Modelled from the spec: §7 error kinds of the core resolver, plus
`ValueError` for the driver-level Python `int`/`float`/unpack failures
(`src/convert.py` lines 46, 202, 207, 600-601). -/
inductive Err where
  | MalformedNotation
  | TranscriptNotFound
  | IntronicPositionUnsupported
  | ReferenceMismatch
  | ReferenceNotFound
  | ReferenceOutOfBounds
  | ValueError
  deriving Repr, DecidableEq

/-- Modelled from the spec: §3, strand enum of a transcript. -/
inductive Strand where
  | forward
  | reverse
  deriving Repr, DecidableEq

/-- Modelled from the spec: §3, an exon's genomic start/end, both 1-based and
inclusive. -/
structure Exon where
  start : Nat
  stop : Nat
  deriving Repr, DecidableEq

/-- Modelled from the spec: §3, a transcript: identifier, chromosome, strand and
exons sorted by genomic position ascending regardless of strand. -/
structure Transcript where
  id : String
  chrom : String
  strand : Strand
  exons : List Exon
  deriving Repr, DecidableEq

/-- Modelled from the spec: §3, the variant kinds of the mini-language. -/
inductive VariantKind where
  | substitution
  | insertion
  | deletion
  | duplication
  deriving Repr, DecidableEq

/-- Modelled from the spec: §3/§4.3, the structured token produced by the
parser.  `endPos` holds the second position of a ranged (`_`) form; the spec's
data-model list omits it but the grammar's ranged forms require it. -/
structure VariantToken where
  transcriptId : String
  pos : Nat
  intronOffset : Int
  endPos : Option Nat
  kind : VariantKind
  refText : String
  altText : String
  deriving Repr, DecidableEq

/-- Modelled from the spec: §3, the sole output type: chromosome, 1-based
genomic offset, forward-strand reference and alternate alleles. -/
structure GenomicVariant where
  chrom : String
  pos : Nat
  ref : String
  alt : String
  deriving Repr, DecidableEq

/-! ### Variant notation parser (spec §4.3) -/

/-- A base character of the mini-language (upper-case nucleotide letters). -/
def isBaseChar (c : Char) : Bool :=
  c = 'A' || c = 'C' || c = 'G' || c = 'T'

/-- Numeric value of a digit string. -/
def digitsVal (ds : List Char) : Nat :=
  ds.foldl (fun n c => 10 * n + (c.toNat - 48)) 0

/-- Modelled from the spec: §4.3 `position_expr := integer [('+'|'-') integer]`.
Returns the base position, the signed intronic offset and the unread rest. -/
def parsePosExpr (cs : List Char) : Option (Nat × Int × List Char) :=
  let (ds, rest) := cs.span Char.isDigit
  if ds.isEmpty then none
  else
    match rest with
    | '+' :: r2 =>
        let (os, r3) := r2.span Char.isDigit
        if os.isEmpty then none else some (digitsVal ds, (digitsVal os : Int), r3)
    | '-' :: r2 =>
        let (os, r3) := r2.span Char.isDigit
        if os.isEmpty then none else some (digitsVal ds, -(digitsVal os : Int), r3)
    | _ => some (digitsVal ds, 0, rest)

/-- Modelled from the spec: §4.3 `variant_body`.  Returns kind, optional ranged
second position, reference text and alternate text. -/
def parseBody (cs : List Char) : Option (VariantKind × Option Nat × List Char × List Char) :=
  match cs with
  | [r, '>', a] =>
      if isBaseChar r && isBaseChar a then some (.substitution, none, [r], [a]) else none
  | '_' :: rest =>
      let (ds, r2) := rest.span Char.isDigit
      if ds.isEmpty then none
      else
        let q := digitsVal ds
        if r2.take 3 = ['d', 'e', 'l'] then
          let bs := r2.drop 3
          if bs.all isBaseChar then some (.deletion, some q, bs, []) else none
        else if r2.take 3 = ['i', 'n', 's'] then
          let bs := r2.drop 3
          if !bs.isEmpty && bs.all isBaseChar then some (.insertion, some q, [], bs) else none
        else if r2.take 3 = ['d', 'u', 'p'] then
          let bs := r2.drop 3
          if bs.all isBaseChar then some (.duplication, some q, bs, []) else none
        else none
  | _ =>
      if cs.take 3 = ['d', 'e', 'l'] then
        let bs := cs.drop 3
        if bs.all isBaseChar then some (.deletion, none, bs, []) else none
      else if cs.take 3 = ['d', 'u', 'p'] then
        let bs := cs.drop 3
        if bs.all isBaseChar then some (.duplication, none, bs, []) else none
      else none

/-- Split a character list at every occurrence of `sep` (the semantics of
Python `str.split(sep)` for a one-character separator). -/
def splitOnChar (sep : Char) : List Char → List (List Char)
  | [] => [[]]
  | c :: cs =>
      if c = sep then [] :: splitOnChar sep cs
      else
        match splitOnChar sep cs with
        | [] => [[c]]
        | g :: gs => (c :: g) :: gs

/-- Modelled from the spec: §4.3 `parse`, the grammar
`notation := transcript_id ':' 'c.' position_expr variant_body`; any input not
matching the grammar yields `none` (surfaced by the resolver as
`MalformedNotation`). -/
def parseHgvsToken (s : String) : Option VariantToken :=
  match splitOnChar ':' s.data with
  | [tid, rest] =>
      if tid.isEmpty then none
      else if rest.take 2 = ['c', '.'] then
        match parsePosExpr (rest.drop 2) with
        | some (p, off, bodyCs) =>
            match parseBody bodyCs with
            | some (k, q, refCs, altCs) =>
                some ⟨⟨tid⟩, p, off, q, k, ⟨refCs⟩, ⟨altCs⟩⟩
            | none => none
        | none => none
      else none
  | _ => none

/-! ### Reference sequence accessor (spec §4.1) -/

/-- Modelled from the spec: §4.1, a chromosome of the reference sequence with
random access to its bases (`baseAt` is 1-based). -/
structure RefSeq where
  length : Nat
  baseAt : Nat → Char

/-- Modelled from the spec: §4.1 `fetch(chromosome, genomic_offset_1based,
length)`: `ReferenceNotFound` for an absent chromosome, `ReferenceOutOfBounds`
for a window beyond the chromosome length; bases are returned upper-cased. -/
def fetchBases (refIndex : String → Option RefSeq) (chrom : String) (start len : Nat) :
    Except Err String :=
  match refIndex chrom with
  | none => .error .ReferenceNotFound
  | some rs =>
      if 1 ≤ start && start + len - 1 ≤ rs.length then
        .ok ⟨(List.range len).map fun i => (rs.baseAt (start + i)).toUpper⟩
      else .error .ReferenceOutOfBounds

/-! ### Annotation index and coordinate resolver (spec §4.2, §4.4) -/

/-- Modelled from the spec: §6/§9, the load-once immutable state handed to the
resolver by the driver: the transcript annotation index and the
reference-sequence accessor. -/
structure Env where
  genes : List Transcript
  ref : String → Option RefSeq

/-- Number of bases of an exon (inclusive bounds). -/
def exonLen (e : Exon) : Nat := e.stop + 1 - e.start

/-- Modelled from the spec: §3/§4.4, exons in transcript order (5'→3' per
strand): genomic ascending for a forward transcript, descending for reverse. -/
def txExons (t : Transcript) : List Exon :=
  match t.strand with
  | .forward => t.exons
  | .reverse => t.exons.reverse

/-- Genomic coordinate of the `p`-th transcript-relative base of an exon
(`p` is 1-based within the exon, counted in transcript order). -/
def exonBase (st : Strand) (e : Exon) (p : Nat) : Nat :=
  match st with
  | .forward => e.start + (p - 1)
  | .reverse => e.stop - (p - 1)

/-- Genomic coordinate of the exon edge that ends the exon in transcript
order. -/
def txLastBase (st : Strand) (e : Exon) : Nat :=
  match st with
  | .forward => e.stop
  | .reverse => e.start

/-- Genomic coordinate of the exon edge that begins the exon in transcript
order. -/
def txFirstBase (st : Strand) (e : Exon) : Nat :=
  match st with
  | .forward => e.start
  | .reverse => e.stop

/-- Shift a genomic coordinate by a transcript-direction offset: forward strand
moves with the genome, reverse strand against it (spec §4.4 step 3). -/
def intronShift (st : Strand) (g : Nat) (o : Int) : Int :=
  match st with
  | .forward => (g : Int) + o
  | .reverse => (g : Int) - o

/-- Is `g` strictly inside the intron gap between exon `e` and the next exon
(in transcript order)? -/
def inGapAfter (st : Strand) (e nx : Exon) (g : Int) : Bool :=
  match st with
  | .forward => decide ((e.stop : Int) < g) && decide (g < (nx.start : Int))
  | .reverse => decide ((nx.stop : Int) < g) && decide (g < (e.start : Int))

/-- Is `g` strictly inside the intron gap between the previous exon `pe`
(in transcript order) and exon `e`? -/
def inGapBefore (st : Strand) (pe e : Exon) (g : Int) : Bool :=
  match st with
  | .forward => decide ((pe.stop : Int) < g) && decide (g < (e.start : Int))
  | .reverse => decide ((e.stop : Int) < g) && decide (g < (pe.start : Int))

/-- Modelled from the spec: §4.4 steps 3-4.  Walk the exon list in transcript
order, locating the exon whose cumulative transcript-relative range contains
position `p`; a zero intronic offset maps the position inside the exon, a
nonzero offset is placed from the adjacent exon edge into the intron gap and is
rejected with `IntronicPositionUnsupported` when it is not unambiguously
placeable (not at an exon edge, no adjacent exon, or the offset exceeds the
gap).  A position beyond the transcript's cumulative length is rejected with
`ReferenceOutOfBounds` (a window outside the addressable sequence; the spec
fixes no kind for it). -/
def locateExon (st : Strand) : Option Exon → List Exon → Nat → Int → Except Err Nat
  | _, [], _, _ => .error .ReferenceOutOfBounds
  | prevE, e :: es, p, o =>
      if p ≤ exonLen e then
        if o = 0 then .ok (exonBase st e p)
        else if 0 < o then
          if p = exonLen e then
            match es with
            | [] => .error .IntronicPositionUnsupported
            | nx :: _ =>
                let g := intronShift st (txLastBase st e) o
                if inGapAfter st e nx g then .ok g.toNat
                else .error .IntronicPositionUnsupported
          else .error .IntronicPositionUnsupported
        else
          if p = 1 then
            match prevE with
            | none => .error .IntronicPositionUnsupported
            | some pe =>
                let g := intronShift st (txFirstBase st e) o
                if inGapBefore st pe e g then .ok g.toNat
                else .error .IntronicPositionUnsupported
          else .error .IntronicPositionUnsupported
      else locateExon st (some e) es (p - exonLen e) o

/-- Modelled from the spec: §4.4 steps 3-4, the transcript-relative to genomic
offset conversion.  Position 0 does not exist in the 1-based coding coordinate
system and is rejected as malformed. -/
def toGenomic (t : Transcript) (p : Nat) (o : Int) : Except Err Nat :=
  if p = 0 then .error .MalformedNotation
  else locateExon t.strand none (txExons t) p o

/-- Complement of a nucleotide character (unknown characters unchanged). -/
def complementChar (c : Char) : Char :=
  if c = 'A' then 'T'
  else if c = 'T' then 'A'
  else if c = 'C' then 'G'
  else if c = 'G' then 'C'
  else c

/-- Reverse complement of an allele string. -/
def revComp (s : String) : String :=
  ⟨(s.data.map complementChar).reverse⟩

/-- Modelled from the spec: §4.4 step 6, allele text expressed on the forward
genomic strand: unchanged for a forward transcript, reverse-complemented for a
reverse transcript. -/
def strandText (st : Strand) (s : String) : String :=
  match st with
  | .forward => s
  | .reverse => revComp s

/-- Length of the genomic reference span implied by the variant kind
(spec §4.4 steps 5 and 7), for the non-ranged forms. -/
def refSpanLen (tok : VariantToken) : Nat :=
  match tok.kind with
  | .substitution => 1
  | .insertion => 0
  | .deletion => max 1 tok.refText.length
  | .duplication => max 1 tok.refText.length

/-- Modelled from the spec: §4.4 steps 5 and 7.  The genomic window (1-based
start and length) covered by the variant: for a ranged form both endpoints are
resolved and must be collinear within one exon — a span crossing an exon
boundary is rejected (spec §8 permits a distinguishable failure for such
spans, here `IntronicPositionUnsupported`). -/
def windowOf (t : Transcript) (tok : VariantToken) (g1 : Nat) : Except Err (Nat × Nat) :=
  match tok.endPos with
  | none =>
      let len := refSpanLen tok
      match t.strand with
      | .forward => .ok (g1, len)
      | .reverse => .ok (g1 + 1 - len, len)
  | some q =>
      match toGenomic t q 0 with
      | .error e => .error e
      | .ok g2 =>
          match t.strand with
          | .forward =>
              if g2 + 1 - g1 = q + 1 - tok.pos then .ok (g1, q + 1 - tok.pos)
              else .error .IntronicPositionUnsupported
          | .reverse =>
              if g1 + 1 - g2 = q + 1 - tok.pos then .ok (g2, q + 1 - tok.pos)
              else .error .IntronicPositionUnsupported

/-- Modelled from the spec: §4.4 step 7, the emitted alternate allele per
variant kind (`declAlt` is already strand-adjusted). -/
def emittedAlt (k : VariantKind) (declAlt refOut : String) : String :=
  match k with
  | .substitution => declAlt
  | .insertion => declAlt
  | .deletion => ""
  | .duplication => refOut ++ refOut

/-- Modelled from the spec: §4.4 steps 2-8.  Look up the transcript, convert the
coordinate, fetch the genomic bases of the implied span, validate the declared
reference text (a disagreement is `ReferenceMismatch`, never silently
corrected), strand-adjust allele text and assemble the `GenomicVariant`. -/
def resolveToken (env : Env) (tok : VariantToken) : Except Err GenomicVariant :=
  match List.find? (fun tr => tr.id = tok.transcriptId) env.genes with
  | none => .error .TranscriptNotFound
  | some t =>
      match toGenomic t tok.pos tok.intronOffset with
      | .error e => .error e
      | .ok g1 =>
          match windowOf t tok g1 with
          | .error e => .error e
          | .ok (ws, len) =>
              match fetchBases env.ref t.chrom ws len with
              | .error e => .error e
              | .ok fetched =>
                  let declRef := strandText t.strand tok.refText
                  if (tok.refText != "") && (fetched != declRef) then
                    .error .ReferenceMismatch
                  else
                    let refOut := if tok.refText = "" then fetched else declRef
                    .ok ⟨t.chrom, ws, refOut,
                         emittedAlt tok.kind (strandText t.strand tok.altText) refOut⟩

/-- Modelled from the spec: §4.4 `resolve`, the single resolution operation of
the core (`utils.parse_hgvs` in the repository): parse the notation
(`MalformedNotation` on grammar failure) and resolve the token. -/
def parseHgvs (env : Env) (s : String) : Except Err GenomicVariant :=
  match parseHgvsToken s with
  | none => .error .MalformedNotation
  | some tok => resolveToken env tok

-- DRIVER: everything below is translated from `src/convert.py`.

/-- Python `s.replace('&gt;', '>')` on a character list: every occurrence of
the four-character pattern is replaced, scanning left to right
(`src/convert.py` lines 204 and 596). -/
def decodeGt : List Char → List Char
  | '&' :: 'g' :: 't' :: ';' :: cs => '>' :: decodeGt cs
  | c :: cs => c :: decodeGt cs
  | [] => []

/-- Python `a, b = s.split(':')`: unpacking anything but exactly two parts
raises a `ValueError` (`src/convert.py` lines 46 and 202). -/
def pySplit2 (s : String) : Except Err (String × String) :=
  match splitOnChar ':' s.data with
  | [a, b] => .ok (⟨a⟩, ⟨b⟩)
  | _ => .error .ValueError

/-- Python `int(s)` restricted to an optional sign followed by digits;
any other input raises a `ValueError`. -/
def pyInt? (s : String) : Option Int :=
  match s.data with
  | '-' :: ds => if !ds.isEmpty && ds.all Char.isDigit then some (-(digitsVal ds : Int)) else none
  | ds => if !ds.isEmpty && ds.all Char.isDigit then some ((digitsVal ds : Int)) else none

/-- The exact rational value `num / den` of a parsed decimal literal, kept as
an unreduced fraction (`den` is positive by construction). -/
structure Frac where
  num : Int
  den : Nat
  deriving Repr, DecidableEq

/-- Decimal literal `digits ['.' digits]` (at least one digit overall) as an
exact fraction over a power of ten. -/
def parseDecimal (cs : List Char) : Option Frac :=
  let (w, r) := cs.span Char.isDigit
  match r with
  | [] => if w.isEmpty then none else some ⟨(digitsVal w : Int), 1⟩
  | '.' :: fr =>
      if fr.all Char.isDigit && (!w.isEmpty || !fr.isEmpty) then
        some ⟨(digitsVal w * 10 ^ fr.length + digitsVal fr : Nat), 10 ^ fr.length⟩
      else none
  | _ => none

/-- Python `float(s)` for plain decimal literals, modelled as the literal's
exact rational value (IEEE rounding of the literal is abstracted away). -/
def pyFloat? (s : String) : Option Frac :=
  match s.data with
  | '-' :: cs => (parseDecimal cs).map fun f => ⟨-f.num, f.den⟩
  | cs => parseDecimal cs

/-- `float(s)` as an `Except`: a non-decimal input raises `ValueError`. -/
def pyFloatE (s : String) : Except Err Frac :=
  match pyFloat? s with
  | some q => .ok q
  | none => .error .ValueError

/-- `int(s)` as an `Except`: a non-integer input raises `ValueError`. -/
def pyIntE (s : String) : Except Err Int :=
  match pyInt? s with
  | some n => .ok n
  | none => .error .ValueError

/-- The product `d * f` of an integer and a parsed float. -/
def fracMulInt (d : Int) (f : Frac) : Frac := ⟨d * f.num, f.den⟩

/-- Python 2 `round` on `f.num / f.den` (`f.den` positive): half rounds away
from zero; composed with `int()` the result is the underlying integer.  For a
nonnegative value this is `⌊q + 1/2⌋`, for a negative one `-⌊-q + 1/2⌋`. -/
def pyRound (f : Frac) : Int :=
  if 0 ≤ f.num then (2 * f.num + f.den).ediv (2 * (f.den : Int))
  else -((-(2 * f.num) + (f.den : Int)).ediv (2 * (f.den : Int)))

/-- Python `str.title()`: the first letter of every alphabetic run is
upper-cased, the rest lower-cased. -/
def pyTitleAux : List Char → Bool → List Char
  | [], _ => []
  | c :: cs, prevAlpha =>
      (if c.isAlpha then (if prevAlpha then c.toLower else c.toUpper) else c) ::
        pyTitleAux cs c.isAlpha

/-- Python `s.title()`. -/
def pyTitle (s : String) : String := ⟨pyTitleAux s.data false⟩

/-- A `short-variant` record of the parsed XML report: the `@`-attributes read
by `create_observation` and `write_vcf`. -/
structure ShortVariant where
  position : String
  transcript : String
  cdsEffect : String
  depth : String
  alleleFraction : String
  status : String
  gene : String
  functionalEffect : String
  proteinEffect : String
  deriving Repr, DecidableEq

/-- A `copy-number-alteration` record of the parsed XML report: the
`@`-attributes read by `create_copy_number_observation`. -/
structure CopyNumberVariant where
  position : String
  status : String
  gene : String
  typ : String
  copyNumber : String
  numberOfExons : String
  deriving Repr, DecidableEq

/-- The fields of `ResultsPayload` that `process` and the `create_*`
constructors read.  The nested `short-variants`/`short-variant` (and
copy-number) key pair is collapsed into one `Option`: `process` acts only when
both keys are present, and skips otherwise. -/
structure ResultsPayload where
  submittedDiagnosis : String
  collDate : String
  testType : String
  lastName : String
  firstName : String
  mrn : String
  gender : String
  dob : String
  sampleName : String
  shortVariants : Option (List ShortVariant)
  copyNumberAlterations : Option (List CopyNumberVariant)
  deriving Repr, DecidableEq

/-- The command-line arguments `process`/`main` read
(`src/convert.py` lines 659-689). -/
structure Args where
  projectId : String
  subjectId : Option String
  fileUrl : Option String
  vcfOutFile : Option String
  fasta : String
  deriving Repr, DecidableEq

/-- The short-variant `Observation` dict built by `create_observation`
(`src/convert.py` lines 198-396), as a typed record of its
record-dependent values; the constant `system`/`code` literals of the FHIR
payload are fixed in the source and are not repeated here. -/
structure Observation where
  id : String
  identifierValue : String
  projectTag : String
  subjectRef : String
  specimenRef : String
  specimenName : String
  statusCode : String
  statusDisplay : String
  geneDisplay : String
  variantNameDisplay : String
  functionalDisplay : String
  proteinDisplay : String
  alleleFractionDisplay : String
  sequenceRef : String
  positionDisplay : String
  chromosomeDisplay : String
  depthDisplay : String
  variantReadCountDisplay : String
  transcriptDisplay : String
  deriving Repr, DecidableEq

/-- The copy-number `Observation` dict built by
`create_copy_number_observation` (`src/convert.py` lines 42-195), as a typed
record of its record-dependent values. -/
structure CopyNumberObservation where
  id : String
  projectTag : String
  subjectRef : String
  specimenRef : String
  specimenName : String
  statusCode : String
  statusDisplay : String
  geneDisplay : String
  cnDisplay : String
  sequenceRef : String
  positionDisplay : String
  chromosomeDisplay : String
  typeDisplay : String
  exonsDisplay : String
  copyNumberDisplay : String
  deriving Repr, DecidableEq

/-- Either observation kind; both carry an `id` and are referenced as
`Observation/{id}`. -/
inductive AnyObservation where
  | short (o : Observation)
  | copy (o : CopyNumberObservation)
  deriving Repr, DecidableEq

/-- The `id` of either observation kind. -/
def AnyObservation.obsId : AnyObservation → String
  | .short o => o.id
  | .copy o => o.id

/-- The `Patient` resource built by `create_subject`
(`src/convert.py` lines 452-488). -/
structure Patient where
  id : String
  projectTag : String
  family : String
  given : String
  mrn : String
  gender : String
  birthDate : String
  deriving Repr, DecidableEq

/-- The `Specimen` resource built by `create_specimen`
(`src/convert.py` lines 525-553). -/
structure Specimen where
  id : String
  projectTag : String
  name : String
  subjectRef : String
  deriving Repr, DecidableEq

/-- The `Sequence` resource built by `create_sequence`
(`src/convert.py` lines 491-522). -/
structure SequenceResource where
  id : String
  projectTag : String
  patientRef : String
  specimenRef : String
  specimenName : String
  genomeBuild : String
  variant : List String
  deriving Repr, DecidableEq

/-- The `DiagnosticReport` resource built by `create_report`
(`src/convert.py` lines 399-449). -/
structure DiagnosticReport where
  id : String
  projectTag : String
  assessedCondition : String
  codeText : String
  issued : String
  subjectRef : String
  result : List String
  specimen : Option (String × String)
  presentedForm : Option (String × String)
  deriving Repr, DecidableEq

/-- A FHIR resource appearing in the list returned by `process`. -/
inductive Resource where
  | patient (p : Patient)
  | specimen (s : Specimen)
  | sequenceRes (s : SequenceResource)
  | report (r : DiagnosticReport)
  | obs (o : AnyObservation)
  deriving Repr, DecidableEq

/-- The variant name `'{}:c.{}'.format(transcript, cds_effect)` built by
`create_observation` (`src/convert.py` lines 203-205) and handed to
`parse_hgvs`; `cds_effect` is the record's text with `&gt;` decoded. -/
def obsVariantName (v : ShortVariant) : String :=
  v.transcript ++ ":c." ++ ⟨decodeGt v.cdsEffect.data⟩

/-- The variant name `'{}:c.{}'.format(transcript, cds_effect)` built by the
`write_vcf` loop (`src/convert.py` lines 596-602) and handed to
`parse_hgvs`. -/
def vcfVariantName (v : ShortVariant) : String :=
  v.transcript ++ ":c." ++ ⟨decodeGt v.cdsEffect.data⟩

/-- `int(round(int(variant_dict['@depth']) * float(variant_dict['@allele-fraction'])))`
as computed by `create_observation` (`src/convert.py` line 207). -/
def obsReadCount (depth af : String) : Except Err Int := do
  let d ← pyIntE depth
  let f ← pyFloatE af
  pure (pyRound (fracMulInt d f))

/-- `ad = int(round(int(dp) * float(af)))` as computed by the `write_vcf` loop
(`src/convert.py` line 601). -/
def vcfAdCount (dp af : String) : Except Err Int := do
  let d ← pyIntE dp
  let f ← pyFloatE af
  pure (pyRound (fracMulInt d f))

/-- `create_observation` (`src/convert.py` lines 198-396): split the position,
build the variant name, resolve it through `parse_hgvs`, compute the variant
read count and assemble the Observation record. -/
def createObservation (env : Env) (projectId subjectId specimenId specimenName sequenceId : String)
    (obsId : String) (v : ShortVariant) : Except Err Observation := do
  let rp ← pySplit2 v.position
  let vName := obsVariantName v
  let gv ← parseHgvs env vName
  let vrc ← obsReadCount v.depth v.alleleFraction
  pure { id := obsId
         identifierValue := gv.chrom ++ ":" ++ toString gv.pos ++ ":" ++ gv.ref ++ ":" ++ gv.alt
         projectTag := projectId
         subjectRef := "Patient/" ++ subjectId
         specimenRef := "Specimen/" ++ specimenId
         specimenName := specimenName
         statusCode := v.status
         statusDisplay := "Foundation - " ++ pyTitle v.status
         geneDisplay := v.gene
         variantNameDisplay := vName
         functionalDisplay := v.functionalEffect
         proteinDisplay := "p." ++ v.proteinEffect
         alleleFractionDisplay := v.alleleFraction
         sequenceRef := "Sequence/" ++ sequenceId
         positionDisplay := rp.2
         chromosomeDisplay := rp.1
         depthDisplay := v.depth
         variantReadCountDisplay := toString vrc
         transcriptDisplay := v.transcript }

/-- `create_copy_number_observation` (`src/convert.py` lines 42-195): split the
position and assemble the copy-number Observation record; no resolver access. -/
def createCopyNumberObservation (projectId subjectId specimenId specimenName sequenceId : String)
    (obsId : String) (v : CopyNumberVariant) : Except Err CopyNumberObservation := do
  let rp ← pySplit2 v.position
  pure { id := obsId
         projectTag := projectId
         subjectRef := "Patient/" ++ subjectId
         specimenRef := "Specimen/" ++ specimenId
         specimenName := specimenName
         statusCode := v.status
         statusDisplay := "Foundation - " ++ pyTitle v.status
         geneDisplay := v.gene
         cnDisplay := pyTitle v.typ ++ ": CN=" ++ v.copyNumber
         sequenceRef := "Sequence/" ++ sequenceId
         positionDisplay := rp.2
         chromosomeDisplay := rp.1
         typeDisplay := v.typ
         exonsDisplay := "Exons " ++ v.numberOfExons
         copyNumberDisplay := v.copyNumber }

/-- Python `s.lower()` (ASCII). -/
def pyLower (s : String) : String := ⟨s.data.map Char.toLower⟩

/-- `create_subject` (`src/convert.py` lines 452-488). -/
def createSubject (payload : ResultsPayload) (projectId subjectId : String) : Patient :=
  { id := subjectId
    projectTag := projectId
    family := payload.lastName
    given := payload.firstName
    mrn := payload.mrn
    gender := pyLower payload.gender
    birthDate := payload.dob }

/-- `create_specimen` (`src/convert.py` lines 525-553). -/
def createSpecimen (payload : ResultsPayload) (projectId subjectId specimenId : String) : Specimen :=
  { id := specimenId
    projectTag := projectId
    name := payload.sampleName
    subjectRef := "Patient/" ++ subjectId }

/-- `create_sequence` (`src/convert.py` lines 491-522); the `variant` list
starts empty and is filled in by `process`. -/
def createSequence (projectId subjectId specimenId specimenName sequenceId : String) :
    SequenceResource :=
  { id := sequenceId
    projectTag := projectId
    patientRef := "Patient/" ++ subjectId
    specimenRef := "Specimen/" ++ specimenId
    specimenName := specimenName
    genomeBuild := "GRCh37"
    variant := [] }

/-- `create_report` (`src/convert.py` lines 399-449); the `result` list starts
empty and is filled in by `process` on the FHIR path. -/
def createReport (payload : ResultsPayload) (projectId subjectId : String)
    (specimen : Option (String × String)) (fileUrl : Option String) (reportId : String) :
    DiagnosticReport :=
  { id := reportId
    projectTag := projectId
    assessedCondition := payload.submittedDiagnosis
    codeText := payload.testType
    issued := payload.collDate
    subjectRef := "Patient/" ++ subjectId
    result := []
    specimen := specimen
    presentedForm := fileUrl.map fun u => (u, payload.testType) }

/-- `'1/1' if float(af) > 0.9 else '0/1'` (`src/convert.py` line 600):
`afv > 9/10` as a cross-multiplied integer comparison (`afv.den` positive). -/
def gtOf (afv : Frac) : String :=
  if 9 * (afv.den : Int) < 10 * afv.num then "1/1" else "0/1"

/-- The data row written for one variant (`src/convert.py` line 605), newline
included, exactly as the `format` string assembles it. -/
def vcfDataRow (gv : GenomicVariant) (dp af gt : String) (ad : Int) : String :=
  gv.chrom ++ "\t" ++ toString gv.pos ++ "\t.\t" ++ gv.ref ++ "\t" ++ gv.alt ++
    "\t.\t.\tDP=" ++ dp ++ ";AF=" ++ af ++ "\tGT:DP:AD\t" ++
    gt ++ ":" ++ dp ++ ":" ++ toString ad ++ "\n"

/-- The body of the `write_vcf` loop for one record (`src/convert.py` lines
596-605), in the source's evaluation order: `float(af)` for the genotype,
`int(dp)`/`float(af)` for AD, then `parse_hgvs`, then the formatted row. -/
def vcfVariantLine (env : Env) (v : ShortVariant) : Except Err String := do
  let vName := vcfVariantName v
  let afv ← pyFloatE v.alleleFraction
  let gt := gtOf afv
  let ad ← vcfAdCount v.depth v.alleleFraction
  let gv ← parseHgvs env vName
  pure (vcfDataRow gv v.depth v.alleleFraction gt ad)

/-- The fixed header `write_vcf` writes before any data row
(`src/convert.py` lines 560-594), one string per written line, newlines
included. -/
def vcfHeaderLines (fileDate fasta specimenName : String) : List String :=
  [ "##fileformat=VCFv4.2\n",
    "##fileDate=" ++ fileDate ++ "\n",
    "##source=foundation-xml-fhir\n",
    "##reference=file://" ++ fasta ++ "\n",
    "##INFO=<ID=DP,Number=1,Type=Integer,Description=\"Total Depth\">\n",
    "##INFO=<ID=AF,Number=A,Type=Float,Description=\"Allele Frequency\">\n",
    "##FORMAT=<ID=GT,Number=1,Type=String,Description=\"Genotype\">\n",
    "##FORMAT=<ID=DP,Number=1,Type=Integer,Description=\"Read Depth\">\n",
    "##FORMAT=<ID=AD,Number=.,Type=Integer,Description=\"Number of reads harboring allele (in order specified by GT)\">\n",
    "##contig=<ID=chr1,length=248956422>\n",
    "##contig=<ID=chr2,length=242193529>\n",
    "##contig=<ID=chr3,length=198295559>\n",
    "##contig=<ID=chr4,length=190214555>\n",
    "##contig=<ID=chr5,length=181538259>\n",
    "##contig=<ID=chr6,length=170805979>\n",
    "##contig=<ID=chr7,length=159345973>\n",
    "##contig=<ID=chr8,length=145138636>\n",
    "##contig=<ID=chr9,length=138394717>\n",
    "##contig=<ID=chr10,length=133797422>\n",
    "##contig=<ID=chr11,length=135086622>\n",
    "##contig=<ID=chr12,length=133275309>\n",
    "##contig=<ID=chr13,length=114364328>\n",
    "##contig=<ID=chr14,length=107043718>\n",
    "##contig=<ID=chr15,length=101991189>\n",
    "##contig=<ID=chr16,length=90338345>\n",
    "##contig=<ID=chr17,length=83257441>\n",
    "##contig=<ID=chr18,length=80373285>\n",
    "##contig=<ID=chr19,length=58617616>\n",
    "##contig=<ID=chr20,length=64444167>\n",
    "##contig=<ID=chr21,length=46709983>\n",
    "##contig=<ID=chr22,length=50818468>\n",
    "##contig=<ID=chrX,length=156040895>\n",
    "##contig=<ID=chrY,length=57227415>\n",
    "##contig=<ID=chrM,length=16569>\n",
    "#CHROM\tPOS\tID\tREF\tALT\tQUAL\tFILTER\tINFO\tFORMAT\t" ++ specimenName ++ "\n" ]

/-- The data rows the `write_vcf` loop manages to write, paired with the error
(if any) that aborted the loop: an exception raised for a record prevents that
record's row but leaves all earlier lines in the file. -/
def writeVcfRows (env : Env) : List ShortVariant → List String × Option Err
  | [] => ([], none)
  | v :: vs =>
      match vcfVariantLine env v with
      | .error e => ([], some e)
      | .ok line =>
          let (ls, errOpt) := writeVcfRows env vs
          (line :: ls, errOpt)

/-- `write_vcf` (`src/convert.py` lines 556-605): the lines present in the
written file (header first, then one row per successfully resolved record,
stopping at the first failure), and the error that propagated, if any.
`process` only calls it when the `short-variant` records are present. -/
def writeVcf (env : Env) (fileDate : String) (fasta : String) (payload : ResultsPayload) :
    List String × Option Err :=
  let (rows, errOpt) := writeVcfRows env (payload.shortVariants.getD [])
  (vcfHeaderLines fileDate fasta payload.sampleName ++ rows, errOpt)

/-- Map a fallible constructor over records, supplying each call the next
generated identifier, failing at the first error exactly as Python's
`list(map(create, records))` raises at the first failing element. -/
def mapWithIds {α β : Type} (f : String → α → Except Err β) (ids : Nat → String) :
    Nat → List α → Except Err (List β)
  | _, [] => .ok []
  | k, a :: as => do
      let b ← f (ids k) a
      let bs ← mapWithIds f ids (k + 1) as
      pure (b :: bs)

/-- The observation-building block of `process` on the FHIR path
(`src/convert.py` lines 631-644): map `create_observation` over the
short-variant records (when both keys are present), then extend with
`create_copy_number_observation` over the copy-number records; the first
raised error aborts the whole block. -/
def allObservationsOf (env : Env) (ids : Nat → String) (payload : ResultsPayload)
    (pid sid spid spn sqid : String) (k : Nat) : Except Err (List AnyObservation) := do
  let shortObs ←
    match payload.shortVariants with
    | some vs =>
        mapWithIds (fun oid v => createObservation env pid sid spid spn sqid oid v) ids k vs
    | none => .ok []
  let cnObs ←
    match payload.copyNumberAlterations with
    | some cs =>
        mapWithIds (fun oid v => createCopyNumberObservation pid sid spid spn sqid oid v)
          ids (k + shortObs.length) cs
    | none => .ok []
  pure (shortObs.map AnyObservation.short ++ cnObs.map AnyObservation.copy)

/-- `process` (`src/convert.py` lines 608-656).  `ids` supplies the
`uuid.uuid4()` values in call order and `fileDate` the `datetime.date.today()`
header value.  The first component is the VCF file content written as a side
effect (empty on the FHIR path); the second is the returned resource list, or
the exception that propagated out of `process`. -/
def process (env : Env) (ids : Nat → String) (fileDate : String)
    (payload : ResultsPayload) (args : Args) : List String × Except Err (List Resource) :=
  let (subjectResources, subjectId, c1) :=
    match args.subjectId with
    | some sid => (([] : List Resource), sid, 0)
    | none =>
        let subj := createSubject payload args.projectId (ids 0)
        ([Resource.patient subj], subj.id, 1)
  match args.vcfOutFile with
  | some _ =>
      let report0 := createReport payload args.projectId subjectId none args.fileUrl (ids c1)
      match payload.shortVariants with
      | some _ =>
          let (lines, errOpt) := writeVcf env fileDate args.fasta payload
          match errOpt with
          | some e => (lines, .error e)
          | none => (lines, .ok (subjectResources ++ [Resource.report report0]))
      | none => ([], .ok (subjectResources ++ [Resource.report report0]))
  | none =>
      let spec := createSpecimen payload args.projectId subjectId (ids c1)
      let seq0 := createSequence args.projectId subjectId spec.id spec.name (ids (c1 + 1))
      let report0 := createReport payload args.projectId subjectId
        (some (spec.name, "Specimen/" ++ spec.id)) args.fileUrl (ids (c1 + 2))
      match allObservationsOf env ids payload args.projectId subjectId spec.id spec.name
          seq0.id (c1 + 3) with
      | .error e => ([], .error e)
      | .ok allObs =>
          let refs := allObs.map fun o => "Observation/" ++ o.obsId
          let finalReport := { report0 with result := refs }
          let finalSeq := { seq0 with variant := refs }
          ([],
           .ok (subjectResources ++
             [Resource.specimen spec, Resource.sequenceRes finalSeq, Resource.report finalReport] ++
             allObs.map Resource.obs))

/-- Python `s.endswith(suffix)`. -/
def pyEndswith (s suf : String) : Bool := suf.data.isSuffixOf s.data

/-- The final path component (everything after the last `/`). -/
def lastComponent (cs : List Char) : List Char :=
  cs.foldl (fun acc c => if c = '/' then [] else acc ++ [c]) []

/-- Split a character list before its last `.` (whole list and empty extension
when there is no dot). -/
def splitLastDot (cs : List Char) : List Char × List Char :=
  match cs.reverse.span (fun c => c != '.') with
  | (_, []) => (cs, [])
  | (after, _ :: preRev) => (preRev.reverse, '.' :: after.reverse)

/-- `posixpath.splitext`: the extension starts at the last dot of the final
path component, provided that component has a non-dot character before that
dot (leading dots of a component never start an extension). -/
def splitextPosix (p : String) : String × String :=
  let cs := p.data
  let base := lastComponent cs
  let core := base.dropWhile (· == '.')
  if core.any (· == '.') then
    let (pre, ext) := splitLastDot cs
    (⟨pre⟩, ⟨ext⟩)
  else (p, "")

/-- `unzip` writes the decompressed output to
`os.path.splitext(zipped_file)[0]` and returns that path
(`src/convert.py` lines 31-39). -/
def unzipTarget (p : String) : String := (splitextPosix p).1

/-- The reference path `main` hands to `process`: gzip-suffixed paths are
replaced by the `unzip` output path, others pass through
(`src/convert.py` lines 685-689). -/
def mainFastaPath (fasta : String) : String :=
  if pyEndswith (pyLower fasta) ".bgz" || pyEndswith (pyLower fasta) ".gz" then
    unzipTarget fasta
  else fasta

/-- The claim's words, not the source: "the path with that final extension
stripped" for a path whose lower-cased name ends in `.gz` or `.bgz`; other
paths unchanged. -/
def claimStrippedPath (p : String) : String :=
  if pyEndswith (pyLower p) ".bgz" then ⟨p.data.take (p.data.length - 4)⟩
  else if pyEndswith (pyLower p) ".gz" then ⟨p.data.take (p.data.length - 3)⟩
  else p

/-! ### Concrete demonstration objects used by the theorems below -/

/-- A forward-strand transcript with a single exon spanning genomic
1000-2000. -/
def demoFwdTranscript : Transcript := ⟨"NM_DEMO", "chr1", .forward, [⟨1000, 2000⟩]⟩

/-- A reverse-strand transcript with a single exon spanning genomic
1000-2000. -/
def demoRevTranscript : Transcript := ⟨"NM_REV", "chr1", .reverse, [⟨1000, 2000⟩]⟩

/-- A one-chromosome reference: `chr1` is 3000 bases, `T` at offset 2000 and
`A` everywhere else. -/
def demoRefIndex : String → Option RefSeq := fun c =>
  if c = "chr1" then some ⟨3000, fun n => if n = 2000 then 'T' else 'A'⟩ else none

/-- The demonstration resolver environment. -/
def demoEnv : Env := ⟨[demoFwdTranscript, demoRevTranscript], demoRefIndex⟩

/-- A well-formed short-variant record whose notation resolves in `demoEnv`. -/
def demoShortVariant : ShortVariant :=
  ⟨"chr1:1049", "NM_DEMO", "50A&gt;G", "100", "0.25", "known", "BRAF", "missense", "V600E"⟩

/-- A record whose cds effect yields a malformed notation (`NM_DEMO:c.50AG`,
no variant body separator), with well-formed numeric fields. -/
def demoBadVariant : ShortVariant :=
  ⟨"chr1:1049", "NM_DEMO", "50AG", "100", "0.5", "known", "BRAF", "missense", "V600E"⟩

/-- A copy-number record. -/
def demoCNV : CopyNumberVariant := ⟨"chr1:1000", "known", "EGFR", "amplification", "8", "1-7"⟩

/-- A report payload with one short variant and one copy-number alteration. -/
def demoPayloadFhir : ResultsPayload :=
  ⟨"C50", "2020-01-01", "F1CDx", "Doe", "Jane", "MRN1", "Female", "1970-01-01",
   "SAMPLE-1", some [demoShortVariant], some [demoCNV]⟩

/-- A report payload whose only short variant carries a malformed notation. -/
def demoPayloadBad : ResultsPayload :=
  ⟨"C50", "2020-01-01", "F1CDx", "Doe", "Jane", "MRN1", "Female", "1970-01-01",
   "SAMPLE-1", some [demoBadVariant], none⟩

/-- A deterministic stand-in for the `uuid.uuid4()` supply. -/
def demoIds : Nat → String := fun n => toString n

/-- Arguments for the FHIR path (no VCF output requested). -/
def demoArgsFhir : Args := ⟨"proj", some "SUBJ", none, none, "ref.fa"⟩

/-- Arguments for the VCF path. -/
def demoArgsVcf : Args := ⟨"proj", some "SUBJ", none, some "out.vcf", "ref.fa"⟩

/-- The resource list returned by `process` on the demonstration FHIR run. -/
def demoResources : List Resource :=
  ((process demoEnv demoIds "2026-02-03" demoPayloadFhir demoArgsFhir).2).toOption.getD []

/-- The observation created for the demonstration short variant. -/
def demoObs : Observation :=
  (createObservation demoEnv "proj" "SUBJ" "SPEC" "SAMPLE-1" "SEQ" "OID"
    demoShortVariant).toOption.getD
    ⟨"", "", "", "", "", "", "", "", "", "", "", "", "", "", "", "", "", "", ""⟩

/-- The VCF data row written for the demonstration short variant. -/
def demoLine : String :=
  (vcfVariantLine demoEnv demoShortVariant).toOption.getD ""

/-- Well-formedness of an annotation exon list (spec §3): exons have 1-based
inclusive bounds and are sorted by genomic position ascending, without
overlap. -/
def ExonsWF (es : List Exon) : Prop :=
  (∀ e ∈ es, 1 ≤ e.start ∧ e.start ≤ e.stop) ∧ es.Pairwise fun a b => a.stop < b.start

/-! ### Helper lemmas -/

theorem string_data_append (a b : String) : (a ++ b).data = a.data ++ b.data :=
  String.data_append a b

theorem splitOnChar_append (sep : Char) (a rest : List Char) (h : sep ∉ a) :
    splitOnChar sep (a ++ sep :: rest) = a :: splitOnChar sep rest := by
  induction a with
  | nil => simp [splitOnChar]
  | cons c a ih =>
      have hc : ¬c = sep := fun hcs => h (hcs ▸ List.mem_cons_self c a)
      have ha : sep ∉ a := fun hs => h (List.mem_cons_of_mem c hs)
      simp only [List.cons_append, splitOnChar, if_neg hc]
      rw [show List.append a (sep :: rest) = a ++ sep :: rest from rfl, ih ha]

/-- C4: on both the FHIR-observation path and the VCF path, the notation
string handed to the resolver is the record's transcript id, `':'`, `'c.'`,
then the cds-effect text with every `&gt;` occurrence decoded to `>` — the
grammar's `transcript_id ':' 'c.'` prefix. -/
theorem c4_notation_construction (v : ShortVariant) :
    obsVariantName v = v.transcript ++ ":" ++ "c." ++ ⟨decodeGt v.cdsEffect.data⟩ ∧
    vcfVariantName v = v.transcript ++ ":" ++ "c." ++ ⟨decodeGt v.cdsEffect.data⟩ ∧
    obsVariantName v = vcfVariantName v := by
  refine ⟨?_, ?_, rfl⟩ <;>
    simp [obsVariantName, vcfVariantName, String.ext_iff, string_data_append]

theorem foldl_comp_no_slash (ys : List Char) : ∀ a : List Char, '/' ∉ ys →
    List.foldl (fun acc c => if c = '/' then [] else acc ++ [c]) a ys = a ++ ys := by
  induction ys with
  | nil => intro a _; simp
  | cons c ys ih =>
      intro a h
      have hc : ¬c = '/' := fun e => h (e ▸ List.mem_cons_self c ys)
      have hy : '/' ∉ ys := fun m => h (List.mem_cons_of_mem c m)
      simp only [List.foldl_cons, if_neg hc, ih _ hy, List.append_assoc, List.singleton_append]

theorem lastComponent_append (xs ys : List Char) (h : '/' ∉ ys) :
    lastComponent (xs ++ ys) = lastComponent xs ++ ys := by
  unfold lastComponent
  rw [List.foldl_append, foldl_comp_no_slash ys _ h]

theorem span_stop (p : Char → Bool) (xs ys : List Char) (c : Char)
    (hx : ∀ x ∈ xs, p x = true) (hc : p c = false) :
    (xs ++ c :: ys).span p = (xs, c :: ys) := by
  rw [List.span_eq_take_drop]
  induction xs with
  | nil => simp [List.takeWhile_cons, List.dropWhile_cons, hc]
  | cons x xs ih =>
      have hx0 : p x = true := hx x (List.mem_cons_self x xs)
      have hxs : ∀ y ∈ xs, p y = true := fun y hy => hx y (List.mem_cons_of_mem x hy)
      have := ih hxs
      simp only [Prod.mk.injEq] at this
      simp [List.takeWhile_cons, List.dropWhile_cons, hx0, this.1, this.2]

theorem splitLastDot_eq (q t : List Char) (h : '.' ∉ t) :
    splitLastDot (q ++ '.' :: t) = (q, '.' :: t) := by
  unfold splitLastDot
  have hrev : (q ++ '.' :: t).reverse = t.reverse ++ '.' :: q.reverse := by
    simp [List.reverse_append]
  have hspan : (t.reverse ++ '.' :: q.reverse).span (fun c => c != '.') =
      (t.reverse, '.' :: q.reverse) := by
    refine span_stop _ _ _ _ (fun x hx => ?_) (by simp)
    have : x ∈ t := List.mem_reverse.mp hx
    simp [bne_iff_ne]
    exact fun e => h (e ▸ this)
  rw [hrev, hspan]
  simp

theorem dropWhile_ne_nil_of_exists (p : Char → Bool) (l : List Char)
    (h : ∃ x ∈ l, p x = false) : List.dropWhile p l ≠ [] := by
  induction l with
  | nil => simp at h
  | cons c l ih =>
      rcases h with ⟨x, hx, hpx⟩
      rcases List.mem_cons.mp hx with rfl | hxl
      · simp [List.dropWhile_cons, hpx]
      · by_cases hpc : p c = true
        · simpa [List.dropWhile_cons, hpc] using ih ⟨x, hxl, hpx⟩
        · simp [List.dropWhile_cons, Bool.eq_false_iff.mpr hpc]

theorem splitextPosix_strip (p : String) (q t : List Char)
    (hp : p.data = q ++ '.' :: t) (hdot : '.' ∉ t) (hslash : '/' ∉ t)
    (hstem : ∃ c ∈ lastComponent q, ¬c = '.') :
    splitextPosix p = (⟨q⟩, ⟨'.' :: t⟩) := by
  have hns : '/' ∉ ('.' :: t) := by
    intro hm
    rcases List.mem_cons.mp hm with e | m
    · exact absurd e (by decide)
    · exact hslash m
  have hbase : lastComponent p.data = lastComponent q ++ '.' :: t := by
    rw [hp, lastComponent_append q ('.' :: t) hns]
  have hlq : List.dropWhile (· == '.') (lastComponent q) ≠ [] := by
    refine dropWhile_ne_nil_of_exists _ _ ?_
    obtain ⟨c, hcm, hcne⟩ := hstem
    exact ⟨c, hcm, by simp [hcne]⟩
  have hcore : List.dropWhile (· == '.') (lastComponent p.data) =
      List.dropWhile (· == '.') (lastComponent q) ++ '.' :: t := by
    rw [hbase, List.dropWhile_append, if_neg (by simp [List.isEmpty_iff, hlq])]
  have hany : (List.dropWhile (· == '.') (lastComponent p.data)).any (· == '.') = true := by
    rw [hcore]
    exact List.any_eq_true.mpr ⟨'.', List.mem_append_right _ (List.mem_cons_self _ _), by simp⟩
  unfold splitextPosix
  rw [if_pos hany, hp, splitLastDot_eq q t hdot]

theorem pyEndswith_of_suffix (s suf : String) (h : suf.data <:+ s.data) :
    pyEndswith s suf = true :=
  List.isSuffixOf_iff_suffix.mpr h

/-- C6 (counterexample): the path `".gz"` has a lower-cased name ending in
`.gz`, yet the driver's decompression target is the path itself, not the path
with the final extension stripped (`posixpath.splitext` finds no extension in
an all-dots stem). -/
theorem c6_counterexample :
    pyEndswith (pyLower ".gz") ".gz" = true ∧ mainFastaPath ".gz" ≠ claimStrippedPath ".gz" :=
  ⟨rfl, by decide⟩

/-- C6 (amended): for a reference path whose lower-cased name ends in `.gz` or
`.bgz` and whose final path component has a non-dot character before that
suffix, the driver decompresses to the path with the final extension stripped;
paths without those suffixes pass through unchanged.  (Degenerate paths whose
final component is only dots before the suffix, such as `".gz"`, keep their
full path as the target.) -/
theorem c6_strip_amended (p p' : String) (q t : List Char)
    (hp : p.data = q ++ '.' :: t)
    (ht : t.map Char.toLower = ['g', 'z'] ∨ t.map Char.toLower = ['b', 'g', 'z'])
    (hstem : ∃ c ∈ lastComponent q, ¬c = '.')
    (h1 : pyEndswith (pyLower p') ".bgz" = false)
    (h2 : pyEndswith (pyLower p') ".gz" = false) :
    mainFastaPath p = claimStrippedPath p ∧ claimStrippedPath p = ⟨q⟩ ∧
      mainFastaPath p' = p' := by
  have hdot : '.' ∉ t := by
    intro hm
    have h1m : Char.toLower '.' ∈ t.map Char.toLower := List.mem_map_of_mem Char.toLower hm
    rcases ht with e | e <;> rw [e] at h1m <;> exact absurd h1m (by decide)
  have hslash : '/' ∉ t := by
    intro hm
    have h1m : Char.toLower '/' ∈ t.map Char.toLower := List.mem_map_of_mem Char.toLower hm
    rcases ht with e | e <;> rw [e] at h1m <;> exact absurd h1m (by decide)
  have hlower : (pyLower p).data = q.map Char.toLower ++ '.' :: t.map Char.toLower := by
    show p.data.map Char.toLower = _
    rw [hp]
    simp [show Char.toLower '.' = '.' from rfl]
  have hstrip := splitextPosix_strip p q t hp hdot hslash hstem
  have hmain3 : mainFastaPath p' = p' := by simp [mainFastaPath, h1, h2]
  rcases ht with htl | htl
  · -- `.gz` suffix
    have hlen : t.length = 2 := by
      have := congrArg List.length htl
      simpa using this
    have hgz : pyEndswith (pyLower p) ".gz" = true := by
      refine pyEndswith_of_suffix _ _ ⟨q.map Char.toLower, ?_⟩
      rw [hlower, htl]
    have hbgz : pyEndswith (pyLower p) ".bgz" = false := by
      by_contra hb
      rw [Bool.not_eq_false] at hb
      obtain ⟨s, hs⟩ := List.isSuffixOf_iff_suffix.mp hb
      rw [hlower, htl] at hs
      have hrev := congrArg List.reverse hs
      simp [List.reverse_append] at hrev
    have hm : mainFastaPath p = (⟨q⟩ : String) := by
      simp only [mainFastaPath, hbgz, hgz, Bool.false_or, if_pos, unzipTarget, hstrip]
    have hc : claimStrippedPath p = (⟨q⟩ : String) := by
      simp only [claimStrippedPath, hbgz, hgz, Bool.false_eq_true, if_false, if_true]
      have hlen3 : p.data.length - 3 = q.length := by
        rw [hp]; simp [hlen]
      rw [hlen3, hp, List.take_left]
    exact ⟨hm.trans hc.symm, hc, hmain3⟩
  · -- `.bgz` suffix
    have hlen : t.length = 3 := by
      have := congrArg List.length htl
      simpa using this
    have hbgz : pyEndswith (pyLower p) ".bgz" = true := by
      refine pyEndswith_of_suffix _ _ ⟨q.map Char.toLower, ?_⟩
      rw [hlower, htl]
    have hm : mainFastaPath p = (⟨q⟩ : String) := by
      simp only [mainFastaPath, hbgz, Bool.true_or, if_pos, unzipTarget, hstrip]
    have hc : claimStrippedPath p = (⟨q⟩ : String) := by
      simp only [claimStrippedPath, hbgz, if_true]
      have hlen4 : p.data.length - 4 = q.length := by
        rw [hp]; simp [hlen]
      rw [hlen4, hp, List.take_left]
    exact ⟨hm.trans hc.symm, hc, hmain3⟩

/-- C6 (witness): the amended statement at `"ref.fa.gz"` (stripped to
`"ref.fa"`) and at the suffix-free `"ref.fa"` (unchanged). -/
theorem c6_witness :
    mainFastaPath "ref.fa.gz" = claimStrippedPath "ref.fa.gz" ∧
    claimStrippedPath "ref.fa.gz" = "ref.fa" ∧
    mainFastaPath "ref.fa" = "ref.fa" :=
  c6_strip_amended "ref.fa.gz" "ref.fa" "ref.fa".data ['g', 'z'] rfl (Or.inl rfl)
    ⟨'r', by decide, by decide⟩ (by decide) (by decide)

theorem locateExon_zero_cons (st : Strand) (prev : Option Exon) (e : Exon) (es : List Exon)
    (p : Nat) :
    locateExon st prev (e :: es) p 0 =
      if p ≤ exonLen e then .ok (exonBase st e p)
      else locateExon st (some e) es (p - exonLen e) 0 := by
  simp [locateExon]

theorem locateExon_fwd_zero_bounds (es : List Exon) : ∀ (prev : Option Exon) (p g : Nat),
    (∀ e ∈ es, e.start ≤ e.stop) →
    locateExon .forward prev es p 0 = .ok g → ∃ e ∈ es, e.start ≤ g ∧ g ≤ e.stop := by
  induction es with
  | nil => intro prev p g _ h; simp [locateExon] at h
  | cons e es ih =>
      intro prev p g hb h
      rw [locateExon_zero_cons] at h
      by_cases hle : p ≤ exonLen e
      · rw [if_pos hle] at h
        obtain rfl : exonBase .forward e p = g := by
          simpa using h
        have he := hb e (List.mem_cons_self e es)
        refine ⟨e, List.mem_cons_self e es, ?_, ?_⟩ <;>
          simp [exonBase, exonLen] at hle ⊢ <;> omega
      · rw [if_neg hle] at h
        obtain ⟨e', he', h1, h2⟩ :=
          ih (some e) (p - exonLen e) g (fun x hx => hb x (List.mem_cons_of_mem e hx)) h
        exact ⟨e', List.mem_cons_of_mem e he', h1, h2⟩

theorem locateExon_fwd_zero_mono (es : List Exon) :
    ∀ (prev prev' : Option Exon) (p₁ p₂ g₁ g₂ : Nat),
    (∀ e ∈ es, e.start ≤ e.stop) → es.Pairwise (fun a b => a.stop < b.start) →
    1 ≤ p₁ → p₁ < p₂ →
    locateExon .forward prev es p₁ 0 = .ok g₁ →
    locateExon .forward prev' es p₂ 0 = .ok g₂ → g₁ < g₂ := by
  induction es with
  | nil => intro _ _ p₁ p₂ g₁ g₂ _ _ _ _ h; simp [locateExon] at h
  | cons e es ih =>
      intro prev prev' p₁ p₂ g₁ g₂ hb hpw hp1 hlt h₁ h₂
      rw [locateExon_zero_cons] at h₁ h₂
      have he := hb e (List.mem_cons_self e es)
      by_cases h2le : p₂ ≤ exonLen e
      · have h1le : p₁ ≤ exonLen e := le_trans (le_of_lt hlt) h2le
        rw [if_pos h1le] at h₁
        rw [if_pos h2le] at h₂
        obtain rfl : exonBase .forward e p₁ = g₁ := by simpa using h₁
        obtain rfl : exonBase .forward e p₂ = g₂ := by simpa using h₂
        simp only [exonBase]
        omega
      · rw [if_neg h2le] at h₂
        by_cases h1le : p₁ ≤ exonLen e
        · rw [if_pos h1le] at h₁
          obtain rfl : exonBase .forward e p₁ = g₁ := by simpa using h₁
          obtain ⟨e', he', hlow, _⟩ :=
            locateExon_fwd_zero_bounds es (some e) (p₂ - exonLen e) g₂
              (fun x hx => hb x (List.mem_cons_of_mem e hx)) h₂
          have hgap : e.stop < e'.start := (List.pairwise_cons.mp hpw).1 e' he'
          simp only [exonBase, exonLen] at h1le ⊢
          omega
        · rw [if_neg h1le] at h₁
          refine ih (some e) (some e) (p₁ - exonLen e) (p₂ - exonLen e) g₁ g₂
            (fun x hx => hb x (List.mem_cons_of_mem e hx)) (List.pairwise_cons.mp hpw).2
            ?_ ?_ h₁ h₂ <;> omega

theorem locateExon_rev_zero_bounds (es : List Exon) : ∀ (prev : Option Exon) (p g : Nat),
    1 ≤ p → (∀ e ∈ es, e.start ≤ e.stop) →
    locateExon .reverse prev es p 0 = .ok g → ∃ e ∈ es, e.start ≤ g ∧ g ≤ e.stop := by
  induction es with
  | nil => intro prev p g _ _ h; simp [locateExon] at h
  | cons e es ih =>
      intro prev p g hp hb h
      rw [locateExon_zero_cons] at h
      by_cases hle : p ≤ exonLen e
      · rw [if_pos hle] at h
        obtain rfl : exonBase .reverse e p = g := by simpa using h
        have he := hb e (List.mem_cons_self e es)
        refine ⟨e, List.mem_cons_self e es, ?_, ?_⟩ <;>
          simp [exonBase, exonLen] at hle ⊢ <;> omega
      · rw [if_neg hle] at h
        obtain ⟨e', he', h1, h2⟩ :=
          ih (some e) (p - exonLen e) g (by omega)
            (fun x hx => hb x (List.mem_cons_of_mem e hx)) h
        exact ⟨e', List.mem_cons_of_mem e he', h1, h2⟩

theorem locateExon_rev_zero_anti (es : List Exon) :
    ∀ (prev prev' : Option Exon) (p₁ p₂ g₁ g₂ : Nat),
    (∀ e ∈ es, e.start ≤ e.stop) → es.Pairwise (fun a b => b.stop < a.start) →
    1 ≤ p₁ → p₁ < p₂ →
    locateExon .reverse prev es p₁ 0 = .ok g₁ →
    locateExon .reverse prev' es p₂ 0 = .ok g₂ → g₂ < g₁ := by
  induction es with
  | nil => intro _ _ p₁ p₂ g₁ g₂ _ _ _ _ h; simp [locateExon] at h
  | cons e es ih =>
      intro prev prev' p₁ p₂ g₁ g₂ hb hpw hp1 hlt h₁ h₂
      rw [locateExon_zero_cons] at h₁ h₂
      have he := hb e (List.mem_cons_self e es)
      by_cases h2le : p₂ ≤ exonLen e
      · have h1le : p₁ ≤ exonLen e := le_trans (le_of_lt hlt) h2le
        rw [if_pos h1le] at h₁
        rw [if_pos h2le] at h₂
        obtain rfl : exonBase .reverse e p₁ = g₁ := by simpa using h₁
        obtain rfl : exonBase .reverse e p₂ = g₂ := by simpa using h₂
        simp only [exonBase, exonLen] at h2le ⊢
        omega
      · rw [if_neg h2le] at h₂
        by_cases h1le : p₁ ≤ exonLen e
        · rw [if_pos h1le] at h₁
          obtain rfl : exonBase .reverse e p₁ = g₁ := by simpa using h₁
          obtain ⟨e', he', _, hhigh⟩ :=
            locateExon_rev_zero_bounds es (some e) (p₂ - exonLen e) g₂ (by omega)
              (fun x hx => hb x (List.mem_cons_of_mem e hx)) h₂
          have hgap : e'.stop < e.start := (List.pairwise_cons.mp hpw).1 e' he'
          simp only [exonBase, exonLen] at h1le ⊢
          omega
        · rw [if_neg h1le] at h₁
          refine ih (some e) (some e) (p₁ - exonLen e) (p₂ - exonLen e) g₁ g₂
            (fun x hx => hb x (List.mem_cons_of_mem e hx)) (List.pairwise_cons.mp hpw).2
            ?_ ?_ h₁ h₂ <;> omega

/-- C1: on a forward-strand transcript with well-formed exons, the resolver's
transcript-to-genome offset map is strictly monotonically increasing over
exon-interior coding positions; in particular, on the single-exon transcript
spanning genomic 1000-2000 the notation `NM_DEMO:c.50A>G` resolves to genomic
offset 1049. -/
theorem c1_forward_offset_monotone (t : Transcript) (p₁ p₂ g₁ g₂ : Nat)
    (hst : t.strand = .forward) (hwf : ExonsWF t.exons)
    (hp : 1 ≤ p₁) (hlt : p₁ < p₂)
    (h₁ : toGenomic t p₁ 0 = .ok g₁) (h₂ : toGenomic t p₂ 0 = .ok g₂) :
    g₁ < g₂ ∧ parseHgvs demoEnv "NM_DEMO:c.50A>G" = .ok ⟨"chr1", 1049, "A", "G"⟩ := by
  refine ⟨?_, rfl⟩
  rw [toGenomic, if_neg (by omega), txExons, hst] at h₁ h₂
  exact locateExon_fwd_zero_mono t.exons none none p₁ p₂ g₁ g₂
    (fun e he => (hwf.1 e he).2) hwf.2 hp hlt h₁ h₂

/-- C1 (witness): the monotonicity instance 50 < 60 on the demonstration
forward transcript, and the concrete resolution. -/
theorem c1_witness :
    1049 < 1059 ∧ parseHgvs demoEnv "NM_DEMO:c.50A>G" = .ok ⟨"chr1", 1049, "A", "G"⟩ :=
  c1_forward_offset_monotone demoFwdTranscript 50 60 1049 1059 rfl
    ⟨by decide, by decide⟩ (by decide) (by decide) rfl rfl

/-- C2: on a reverse-strand transcript with well-formed exons, the resolver's
offset map is inverted (strictly decreasing over exon-interior positions), and
emitted alleles of a reverse-strand resolution are the reverse complements of
the token's transcript-strand texts; in particular `NM_REV:c.1A>G` on the
single-exon transcript spanning 1000-2000 resolves to genomic offset 2000 with
reference `A` emitted as `T` (and alternate `G` as `C`). -/
theorem c2_reverse_offset_inverted (t : Transcript) (p₁ p₂ g₁ g₂ : Nat)
    (env : Env) (tok : VariantToken) (tr : Transcript) (gv : GenomicVariant)
    (hst : t.strand = .reverse) (hwf : ExonsWF t.exons)
    (hp : 1 ≤ p₁) (hlt : p₁ < p₂)
    (h₁ : toGenomic t p₁ 0 = .ok g₁) (h₂ : toGenomic t p₂ 0 = .ok g₂)
    (hfind : List.find? (fun x => x.id = tok.transcriptId) env.genes = some tr)
    (hrev : tr.strand = .reverse) (hkind : tok.kind = .substitution)
    (hne : tok.refText ≠ "")
    (hok : resolveToken env tok = .ok gv) :
    g₂ < g₁ ∧ (gv.ref = revComp tok.refText ∧ gv.alt = revComp tok.altText) ∧
      parseHgvs demoEnv "NM_REV:c.1A>G" = .ok ⟨"chr1", 2000, "T", "C"⟩ := by
  refine ⟨?_, ?_, rfl⟩
  · rw [toGenomic, if_neg (by omega), txExons, hst] at h₁ h₂
    refine locateExon_rev_zero_anti t.exons.reverse none none p₁ p₂ g₁ g₂
      (fun e he => (hwf.1 e (List.mem_reverse.mp he)).2)
      (List.pairwise_reverse.mpr hwf.2) hp hlt h₁ h₂
  · simp only [resolveToken, hfind] at hok
    rcases hg : toGenomic tr tok.pos tok.intronOffset with e | g1
    · simp only [hg] at hok
      exact Except.noConfusion hok
    simp only [hg] at hok
    rcases hw : windowOf tr tok g1 with e | ws
    · simp only [hw] at hok
      exact Except.noConfusion hok
    obtain ⟨ws1, len⟩ := ws
    simp only [hw] at hok
    rcases hf : fetchBases env.ref tr.chrom ws1 len with e | fetched
    · simp only [hf] at hok
      exact Except.noConfusion hok
    simp only [hf, hrev, strandText, hkind, emittedAlt] at hok
    by_cases hcmp : ((tok.refText != "") && (fetched != revComp tok.refText)) = true
    · rw [if_pos hcmp] at hok
      exact Except.noConfusion hok
    · rw [if_neg hcmp, if_neg hne] at hok
      have hgv := Except.ok.inj hok
      subst hgv
      exact ⟨rfl, rfl⟩

/-- C2 (witness): the inverted-map instance 1 < 2 on the demonstration reverse
transcript, the reverse-complemented alleles of its concrete resolution, and
the concrete resolution itself. -/
theorem c2_witness :
    1999 < 2000 ∧
    ((⟨"chr1", 2000, "T", "C"⟩ : GenomicVariant).ref = revComp "A" ∧
     (⟨"chr1", 2000, "T", "C"⟩ : GenomicVariant).alt = revComp "G") ∧
    parseHgvs demoEnv "NM_REV:c.1A>G" = .ok ⟨"chr1", 2000, "T", "C"⟩ :=
  c2_reverse_offset_inverted demoRevTranscript 1 2 2000 1999 demoEnv
    ⟨"NM_REV", 1, 0, none, .substitution, "A", "G"⟩ demoRevTranscript
    ⟨"chr1", 2000, "T", "C"⟩ rfl ⟨by decide, by decide⟩ (by decide) (by decide)
    rfl rfl rfl rfl rfl (by decide) rfl

/-- C3: whenever the declared reference text of a notation disagrees with the
base(s) fetched from the reference sequence at the resolved genomic window,
`resolve` fails with `ReferenceMismatch`; and any `GenomicVariant` it does
return carries the (strand-adjusted) declared reference text, never a silently
substituted genomic base. -/
theorem c3_reference_mismatch (env : Env) (s : String) (tok : VariantToken)
    (t : Transcript) (g1 ws len : Nat) (fetched : String)
    (hp : parseHgvsToken s = some tok)
    (ht : List.find? (fun x => x.id = tok.transcriptId) env.genes = some t)
    (hg : toGenomic t tok.pos tok.intronOffset = .ok g1)
    (hw : windowOf t tok g1 = .ok (ws, len))
    (hf : fetchBases env.ref t.chrom ws len = .ok fetched)
    (hne : tok.refText ≠ "") :
    (fetched ≠ strandText t.strand tok.refText →
      parseHgvs env s = .error .ReferenceMismatch) ∧
    (∀ gv, parseHgvs env s = .ok gv → gv.ref = strandText t.strand tok.refText) := by
  have hres : parseHgvs env s = resolveToken env tok := by
    simp [parseHgvs, hp]
  have hform : resolveToken env tok =
      if ((tok.refText != "") && (fetched != strandText t.strand tok.refText)) = true
      then .error .ReferenceMismatch
      else .ok ⟨t.chrom, ws, strandText t.strand tok.refText,
                emittedAlt tok.kind (strandText t.strand tok.altText)
                  (strandText t.strand tok.refText)⟩ := by
    simp only [resolveToken, ht, hg, hw, hf, if_neg hne]
  constructor
  · intro hmm
    rw [hres, hform, if_pos (by simp [hne, hmm])]
  · intro gv hgv
    rw [hres, hform] at hgv
    by_cases hcmp : ((tok.refText != "") && (fetched != strandText t.strand tok.refText)) = true
    · rw [if_pos hcmp] at hgv
      exact Except.noConfusion hgv
    · rw [if_neg hcmp] at hgv
      have := Except.ok.inj hgv
      subst this
      rfl

/-- C3 (witness): `NM_DEMO:c.50T>C` declares reference `T` where the
demonstration genome has `A`; resolution fails with `ReferenceMismatch` and any
successful return would carry the declared text. -/
theorem c3_witness :
    ("A" ≠ strandText Strand.forward "T" →
      parseHgvs demoEnv "NM_DEMO:c.50T>C" = .error .ReferenceMismatch) ∧
    (∀ gv, parseHgvs demoEnv "NM_DEMO:c.50T>C" = .ok gv →
      gv.ref = strandText Strand.forward "T") :=
  c3_reference_mismatch demoEnv "NM_DEMO:c.50T>C"
    ⟨"NM_DEMO", 50, 0, none, .substitution, "T", "C"⟩ demoFwdTranscript
    1049 1049 1 "A" rfl rfl rfl rfl rfl (by decide)

/-! ### Evaluation lemmas for the driver paths -/

theorem exceptBind_ok {α β : Type} (a : α) (f : α → Except Err β) :
    (Except.ok a >>= f) = f a := rfl

theorem exceptBind_error {α β : Type} (e : Err) (f : α → Except Err β) :
    ((Except.error e : Except Err α) >>= f) = .error e := rfl

theorem obsReadCount_eval (dp af : String) (d : Int) (f : Frac)
    (hd : pyInt? dp = some d) (hf : pyFloat? af = some f) :
    obsReadCount dp af = .ok (pyRound (fracMulInt d f)) := by
  simp [obsReadCount, pyIntE, pyFloatE, hd, hf, exceptBind_ok]

theorem vcfAdCount_eval (dp af : String) (d : Int) (f : Frac)
    (hd : pyInt? dp = some d) (hf : pyFloat? af = some f) :
    vcfAdCount dp af = .ok (pyRound (fracMulInt d f)) := by
  simp [vcfAdCount, pyIntE, pyFloatE, hd, hf, exceptBind_ok]

theorem vcfVariantLine_eval (env : Env) (v : ShortVariant) (d : Int) (f : Frac)
    (gv : GenomicVariant)
    (hd : pyInt? v.depth = some d) (hf : pyFloat? v.alleleFraction = some f)
    (hg : parseHgvs env (vcfVariantName v) = .ok gv) :
    vcfVariantLine env v =
      .ok (vcfDataRow gv v.depth v.alleleFraction (gtOf f) (pyRound (fracMulInt d f))) := by
  simp [vcfVariantLine, pyFloatE, hf, exceptBind_ok,
    vcfAdCount_eval v.depth v.alleleFraction d f hd hf, hg]

theorem vcfVariantLine_error_resolver (env : Env) (v : ShortVariant) (e : Err)
    (d : Int) (f : Frac)
    (hd : pyInt? v.depth = some d) (hf : pyFloat? v.alleleFraction = some f)
    (hg : parseHgvs env (vcfVariantName v) = .error e) :
    vcfVariantLine env v = .error e := by
  simp [vcfVariantLine, pyFloatE, hf, exceptBind_ok,
    vcfAdCount_eval v.depth v.alleleFraction d f hd hf, hg]

theorem createObservation_eval (env : Env)
    (pid sid spid spn sqid oid : String) (v : ShortVariant)
    (rp : String × String) (gv : GenomicVariant) (d : Int) (f : Frac)
    (hsp : pySplit2 v.position = .ok rp)
    (hg : parseHgvs env (obsVariantName v) = .ok gv)
    (hd : pyInt? v.depth = some d) (hf : pyFloat? v.alleleFraction = some f) :
    createObservation env pid sid spid spn sqid oid v = .ok
      { id := oid
        identifierValue := gv.chrom ++ ":" ++ toString gv.pos ++ ":" ++ gv.ref ++ ":" ++ gv.alt
        projectTag := pid
        subjectRef := "Patient/" ++ sid
        specimenRef := "Specimen/" ++ spid
        specimenName := spn
        statusCode := v.status
        statusDisplay := "Foundation - " ++ pyTitle v.status
        geneDisplay := v.gene
        variantNameDisplay := obsVariantName v
        functionalDisplay := v.functionalEffect
        proteinDisplay := "p." ++ v.proteinEffect
        alleleFractionDisplay := v.alleleFraction
        sequenceRef := "Sequence/" ++ sqid
        positionDisplay := rp.2
        chromosomeDisplay := rp.1
        depthDisplay := v.depth
        variantReadCountDisplay := toString (pyRound (fracMulInt d f))
        transcriptDisplay := v.transcript } := by
  simp [createObservation, hsp, hg, exceptBind_ok,
    obsReadCount_eval v.depth v.alleleFraction d f hd hf]

theorem createObservation_ok_rc (env : Env)
    (pid sid spid spn sqid oid : String) (v : ShortVariant)
    (rp : String × String) (gv : GenomicVariant) (d : Int) (f : Frac)
    (hsp : pySplit2 v.position = .ok rp)
    (hg : parseHgvs env (obsVariantName v) = .ok gv)
    (hd : pyInt? v.depth = some d) (hf : pyFloat? v.alleleFraction = some f) :
    ∃ o, createObservation env pid sid spid spn sqid oid v = .ok o ∧
      o.variantReadCountDisplay = toString (pyRound (fracMulInt d f)) :=
  ⟨_, createObservation_eval env pid sid spid spn sqid oid v rp gv d f hsp hg hd hf, rfl⟩

theorem createObservation_error_resolver (env : Env)
    (pid sid spid spn sqid oid : String) (v : ShortVariant)
    (rp : String × String) (e : Err)
    (hsp : pySplit2 v.position = .ok rp)
    (hg : parseHgvs env (obsVariantName v) = .error e) :
    createObservation env pid sid spid spn sqid oid v = .error e := by
  simp [createObservation, hsp, hg, exceptBind_ok, exceptBind_error]

theorem writeVcfRows_ok_get (env : Env) :
    ∀ (vs : List ShortVariant) (rows : List String) (i : Nat) (v : ShortVariant),
    writeVcfRows env vs = (rows, none) → vs[i]? = some v →
    ∃ row, rows[i]? = some row ∧ vcfVariantLine env v = .ok row := by
  intro vs
  induction vs with
  | nil => intro rows i v _ hv; simp at hv
  | cons v0 vs ih =>
      intro rows i v hw hv
      rcases hline : vcfVariantLine env v0 with e | line
      · rw [writeVcfRows, hline] at hw
        exact absurd (congrArg Prod.snd hw).symm (by simp)
      · rcases hrec : writeVcfRows env vs with ⟨ls, errOpt⟩
        rw [writeVcfRows, hline, hrec] at hw
        obtain ⟨rfl, rfl⟩ : line :: ls = rows ∧ errOpt = none := by
          simpa [Prod.ext_iff] using hw
        match i, hv with
        | 0, hv =>
            obtain rfl : v0 = v := by simpa using hv
            exact ⟨line, by simp, hline⟩
        | i + 1, hv =>
            obtain ⟨row, hr, hl⟩ := ih ls i v hrec (by simpa using hv)
            exact ⟨row, by simpa using hr, hl⟩

theorem splitTabs_vcfDataRow (gv : GenomicVariant) (dp af gt : String) (ad : Int)
    (hchrom : '\t' ∉ gv.chrom.data) (hpos : '\t' ∉ (toString gv.pos).data)
    (href : '\t' ∉ gv.ref.data) (halt : '\t' ∉ gv.alt.data) :
    ∃ rest, splitOnChar '\t' (vcfDataRow gv dp af gt ad).data =
      gv.chrom.data :: (toString gv.pos).data :: ['.'] :: gv.ref.data ::
        gv.alt.data :: rest := by
  have hd : (vcfDataRow gv dp af gt ad).data =
      gv.chrom.data ++ '\t' :: ((toString gv.pos).data ++ '\t' :: (['.'] ++ '\t' ::
        (gv.ref.data ++ '\t' :: (gv.alt.data ++ '\t' ::
          ('.' :: '\t' :: '.' :: '\t' ::
            (("DP=" ++ dp ++ ";AF=" ++ af ++ "\tGT:DP:AD\t" ++ gt ++ ":" ++ dp ++ ":" ++
              toString ad ++ "\n").data)))))) := by
    simp [vcfDataRow, string_data_append, List.append_assoc]
  rw [hd, splitOnChar_append '\t' _ _ hchrom, splitOnChar_append '\t' _ _ hpos,
    splitOnChar_append '\t' ['.'] _ (by decide), splitOnChar_append '\t' _ _ href,
    splitOnChar_append '\t' _ _ halt]
  exact ⟨_, rfl⟩

/-- C5: every data row the VCF writer emits carries, in its CHROM, POS, REF and
ALT columns, exactly the chromosome, 1-based offset, reference allele and
alternate allele the resolver returned for that record, unmodified. -/
theorem c5_vcf_row_columns (env : Env) (fileDate fasta : String)
    (payload : ResultsPayload) (lines : List String) (i : Nat)
    (v : ShortVariant) (gv : GenomicVariant)
    (hw : writeVcf env fileDate fasta payload = (lines, none))
    (hv : (payload.shortVariants.getD [])[i]? = some v)
    (hg : parseHgvs env (vcfVariantName v) = .ok gv)
    (hchrom : '\t' ∉ gv.chrom.data) (hpos : '\t' ∉ (toString gv.pos).data)
    (href : '\t' ∉ gv.ref.data) (halt : '\t' ∉ gv.alt.data) :
    ∃ row rest,
      lines[(vcfHeaderLines fileDate fasta payload.sampleName).length + i]? = some row ∧
      splitOnChar '\t' row.data =
        gv.chrom.data :: (toString gv.pos).data :: ['.'] :: gv.ref.data ::
          gv.alt.data :: rest := by
  rcases hrw : writeVcfRows env (payload.shortVariants.getD []) with ⟨rows, errOpt⟩
  rw [writeVcf, hrw] at hw
  obtain ⟨rfl, rfl⟩ :
      vcfHeaderLines fileDate fasta payload.sampleName ++ rows = lines ∧ errOpt = none := by
    simpa [Prod.ext_iff] using hw
  obtain ⟨row, hr, hl⟩ := writeVcfRows_ok_get env _ rows i v hrw hv
  rcases hfv : pyFloat? v.alleleFraction with _ | f
  · exact absurd hl (by simp [vcfVariantLine, pyFloatE, hfv, exceptBind_error])
  rcases hdv : pyInt? v.depth with _ | d
  · exact absurd hl
      (by simp [vcfVariantLine, pyFloatE, hfv, vcfAdCount, pyIntE, hdv,
            exceptBind_ok, exceptBind_error])
  rw [vcfVariantLine_eval env v d f gv hdv hfv hg] at hl
  obtain rfl := Except.ok.inj hl
  obtain ⟨rest, hrest⟩ := splitTabs_vcfDataRow gv v.depth v.alleleFraction (gtOf f)
    (pyRound (fracMulInt d f)) hchrom hpos href halt
  refine ⟨_, rest, ?_, hrest⟩
  rw [List.getElem?_append_right (Nat.le_add_right _ _)]
  simpa using hr

/-- C5 (witness): in the demonstration VCF run, the first data row after the
35 header lines splits on tabs into `chr1`, `1049`, `.`, `A`, `G`, ... exactly
as the resolver returned them. -/
theorem c5_witness :
    ∃ row rest,
      ((writeVcf demoEnv "2026-02-03" "ref.fa" demoPayloadFhir).1)[
        (vcfHeaderLines "2026-02-03" "ref.fa" demoPayloadFhir.sampleName).length + 0]? =
          some row ∧
      splitOnChar '\t' row.data =
        ("chr1" : String).data :: (toString (1049 : Nat)).data :: ['.'] ::
          ("A" : String).data :: ("G" : String).data :: rest :=
  c5_vcf_row_columns demoEnv "2026-02-03" "ref.fa" demoPayloadFhir
    (writeVcf demoEnv "2026-02-03" "ref.fa" demoPayloadFhir).1 0 demoShortVariant
    ⟨"chr1", 1049, "A", "G"⟩ rfl rfl rfl (by decide) (by decide) (by decide) (by decide)

/-- C7 (counterexample): for a report whose first short variant carries the
malformed notation `NM_DEMO:c.50AG`, the VCF path propagates
`MalformedNotation` but the already-written file content (the full header) is
not empty — a partially written file remains, contradicting the claim. -/
theorem c7_counterexample :
    (writeVcf demoEnv "2026-02-03" "ref.fa" demoPayloadBad).2 = some .MalformedNotation ∧
    (writeVcf demoEnv "2026-02-03" "ref.fa" demoPayloadBad).1 ≠ [] :=
  ⟨rfl, by decide⟩

/-- C7 (amended): a malformed notation makes `resolve` fail with
`MalformedNotation` uniformly; on the FHIR path no Observation is produced for
the record (the constructor returns the error); on the VCF path no row is
written for the failing record and the error propagates — but the lines
already written (the header, and any earlier records' rows) remain in the
file. -/
theorem c7_malformed_amended (env : Env) (s : String) (v : ShortVariant)
    (fileDate fasta : String) (payload : ResultsPayload) (vs : List ShortVariant)
    (pid sid spid spn sqid oid : String) (rp : String × String) (d : Int) (f : Frac)
    (hparse : parseHgvsToken s = none)
    (hname : obsVariantName v = s)
    (hsplit : pySplit2 v.position = .ok rp)
    (hd : pyInt? v.depth = some d)
    (hf : pyFloat? v.alleleFraction = some f)
    (hpayload : payload.shortVariants = some (v :: vs)) :
    parseHgvs env s = .error .MalformedNotation ∧
    createObservation env pid sid spid spn sqid oid v = .error .MalformedNotation ∧
    writeVcf env fileDate fasta payload =
      (vcfHeaderLines fileDate fasta payload.sampleName, some .MalformedNotation) := by
  have hmal : parseHgvs env s = .error .MalformedNotation := by
    simp [parseHgvs, hparse]
  have hmalObs : parseHgvs env (obsVariantName v) = .error .MalformedNotation := by
    rw [hname]; exact hmal
  have hobs := createObservation_error_resolver env pid sid spid spn sqid oid v rp
    .MalformedNotation hsplit hmalObs
  have hvcfname : parseHgvs env (vcfVariantName v) = .error .MalformedNotation := by
    rw [show vcfVariantName v = obsVariantName v from rfl]; exact hmalObs
  have hline := vcfVariantLine_error_resolver env v .MalformedNotation d f hd hf hvcfname
  refine ⟨hmal, hobs, ?_⟩
  rw [writeVcf, hpayload]
  simp [writeVcfRows, hline]

/-- C7 (witness): the amended statement at the concrete malformed record. -/
theorem c7_witness :
    parseHgvs demoEnv "NM_DEMO:c.50AG" = .error .MalformedNotation ∧
    createObservation demoEnv "proj" "SUBJ" "SPEC" "SAMPLE-1" "SEQ" "OID" demoBadVariant =
      .error .MalformedNotation ∧
    writeVcf demoEnv "2026-02-03" "ref.fa" demoPayloadBad =
      (vcfHeaderLines "2026-02-03" "ref.fa" demoPayloadBad.sampleName,
       some .MalformedNotation) :=
  c7_malformed_amended demoEnv "NM_DEMO:c.50AG" demoBadVariant "2026-02-03" "ref.fa"
    demoPayloadBad [] "proj" "SUBJ" "SPEC" "SAMPLE-1" "SEQ" "OID" ("chr1", "1049")
    100 ⟨5, 10⟩ rfl rfl rfl rfl rfl rfl

theorem mapWithIds_error_at {α β : Type} (f : String → α → Except Err β)
    (ids : Nat → String) (v : α) (post : List α) (e : Err)
    (hv : ∀ oid, f oid v = .error e) :
    ∀ (pre : List α) (k : Nat),
    (∀ w ∈ pre, ∀ oid, ∃ b, f oid w = .ok b) →
    mapWithIds f ids k (pre ++ v :: post) = .error e := by
  intro pre
  induction pre with
  | nil =>
      intro k _
      simp [mapWithIds, hv (ids k), exceptBind_error]
  | cons w pre ih =>
      intro k hok
      obtain ⟨b, hb⟩ := hok w (List.mem_cons_self w pre) (ids k)
      have hrec := ih (k + 1) (fun x hx => hok x (List.mem_cons_of_mem w hx))
      simp [mapWithIds, hb, exceptBind_ok, hrec, exceptBind_error]

theorem writeVcfRows_error_at (env : Env) (v : ShortVariant) (post : List ShortVariant)
    (e : Err) (hv : vcfVariantLine env v = .error e) :
    ∀ pre : List ShortVariant,
    (∀ w ∈ pre, ∃ l, vcfVariantLine env w = .ok l) →
    (writeVcfRows env (pre ++ v :: post)).2 = some e := by
  intro pre
  induction pre with
  | nil =>
      intro _
      simp [writeVcfRows, hv]
  | cons w pre ih =>
      intro hok
      obtain ⟨l, hl⟩ := hok w (List.mem_cons_self w pre)
      have hrec := ih fun x hx => hok x (List.mem_cons_of_mem w hx)
      rcases hrw : writeVcfRows env (pre ++ v :: post) with ⟨ls, errOpt⟩
      rw [hrw] at hrec
      simp only [List.cons_append, writeVcfRows, List.append_eq, hl, hrw]
      simpa using hrec

/-- C8: on both driver paths, the first resolver failure among a report's
short-variant records propagates unchanged out of `process`/`write_vcf`: with
the records' positions and numeric fields well formed, a report whose variants
resolve up to a record on which the resolver fails with `e` makes `process`
fail with exactly `e` — no handler, no swallowing, no skipping. -/
theorem c8_error_propagation (env : Env) (ids : Nat → String) (fileDate : String)
    (payload : ResultsPayload) (args : Args)
    (pre post : List ShortVariant) (v : ShortVariant) (e : Err)
    (hsv : payload.shortVariants = some (pre ++ v :: post))
    (hgood : ∀ w ∈ pre ++ v :: post,
      (∃ rp, pySplit2 w.position = .ok rp) ∧
      (∃ d, pyInt? w.depth = some d) ∧ (∃ f, pyFloat? w.alleleFraction = some f))
    (hpre : ∀ w ∈ pre, ∃ gvw, parseHgvs env (obsVariantName w) = .ok gvw)
    (herr : parseHgvs env (obsVariantName v) = .error e) :
    (process env ids fileDate payload args).2 = .error e := by
  obtain ⟨⟨rpv, hrpv⟩, ⟨dv, hdv⟩, ⟨fv, hfv⟩⟩ :=
    hgood v (List.mem_append_right _ (List.mem_cons_self v post))
  have herrV : parseHgvs env (vcfVariantName v) = .error e := herr
  have hlineV := vcfVariantLine_error_resolver env v e dv fv hdv hfv herrV
  have hobsV : ∀ pid sid spid spn sqid oid : String,
      createObservation env pid sid spid spn sqid oid v = .error e :=
    fun pid sid spid spn sqid oid =>
      createObservation_error_resolver env pid sid spid spn sqid oid v rpv e hrpv herr
  have hlinesPre : ∀ w ∈ pre, ∃ l, vcfVariantLine env w = .ok l := by
    intro w hw
    obtain ⟨⟨rp, hrp⟩, ⟨d, hd⟩, ⟨f, hf⟩⟩ := hgood w (List.mem_append_left _ hw)
    obtain ⟨gvw, hgvw⟩ := hpre w hw
    exact ⟨_, vcfVariantLine_eval env w d f gvw hd hf hgvw⟩
  have hobsPre : ∀ pid sid spid spn sqid : String, ∀ w ∈ pre, ∀ oid : String,
      ∃ o, createObservation env pid sid spid spn sqid oid w = .ok o := by
    intro pid sid spid spn sqid w hw oid
    obtain ⟨⟨rp, hrp⟩, ⟨d, hd⟩, ⟨f, hf⟩⟩ := hgood w (List.mem_append_left _ hw)
    obtain ⟨gvw, hgvw⟩ := hpre w hw
    obtain ⟨o, ho, _⟩ :=
      createObservation_ok_rc env pid sid spid spn sqid oid w rp gvw d f hrp hgvw hd hf
    exact ⟨o, ho⟩
  have hmapAll : ∀ pid sid spid spn sqid : String, ∀ k : Nat,
      mapWithIds (fun oid w => createObservation env pid sid spid spn sqid oid w)
        ids k (pre ++ v :: post) = .error e :=
    fun pid sid spid spn sqid k =>
      mapWithIds_error_at _ ids v post e (fun oid => hobsV pid sid spid spn sqid oid)
        pre k (fun w hw oid => hobsPre pid sid spid spn sqid w hw oid)
  have hallAll : ∀ pid sid spid spn sqid : String, ∀ k : Nat,
      allObservationsOf env ids payload pid sid spid spn sqid k = .error e :=
    fun pid sid spid spn sqid k => by
      simp [allObservationsOf, hsv, hmapAll pid sid spid spn sqid k, exceptBind_error]
  have hrows2 : (writeVcfRows env (pre ++ v :: post)).2 = some e :=
    writeVcfRows_error_at env v post e hlineV pre hlinesPre
  rcases hrw : writeVcfRows env (pre ++ v :: post) with ⟨rows, errOpt⟩
  rw [hrw] at hrows2
  cases hvcf : args.vcfOutFile with
  | some fo =>
      cases hsub : args.subjectId <;>
        simp [process, hvcf, hsub, hsv, writeVcf, hrw, hrows2]
  | none =>
      cases hsub : args.subjectId <;>
        simp [process, hvcf, hsub, hallAll]

/-- C8 (witness): a report whose only short variant is malformed makes the
VCF-path `process` fail with exactly `MalformedNotation`. -/
theorem c8_witness :
    (process demoEnv demoIds "2026-02-03" demoPayloadBad demoArgsVcf).2 =
      .error .MalformedNotation :=
  c8_error_propagation demoEnv demoIds "2026-02-03" demoPayloadBad demoArgsVcf
    [] [] demoBadVariant .MalformedNotation rfl
    (by
      intro w hw
      simp at hw
      subst hw
      exact ⟨⟨("chr1", "1049"), rfl⟩, ⟨100, rfl⟩, ⟨⟨5, 10⟩, rfl⟩⟩)
    (by intro w hw; exact absurd hw (List.not_mem_nil w))
    rfl

/-- C9: when no VCF output is requested and `process` returns a resource list,
the DiagnosticReport's `result` list and the Sequence's `variant` list each
hold exactly one `Observation/{id}` entry per created observation
(short-variant and copy-number alike), in creation order, and every referenced
observation is itself in the returned list (they are exactly its tail). -/
theorem c9_reference_graph (env : Env) (ids : Nat → String) (fileDate : String)
    (payload : ResultsPayload) (args : Args)
    (lines : List String) (resources : List Resource)
    (hvcf : args.vcfOutFile = none)
    (hproc : process env ids fileDate payload args = (lines, .ok resources)) :
    ∃ (pre1 pre2 : List Resource) (sq : SequenceResource) (r : DiagnosticReport)
      (obs : List AnyObservation),
      resources =
        pre1 ++ Resource.sequenceRes sq :: pre2 ++ [Resource.report r] ++
          obs.map Resource.obs ∧
      r.result = obs.map (fun o => "Observation/" ++ o.obsId) ∧
      sq.variant = obs.map (fun o => "Observation/" ++ o.obsId) ∧
      ∀ o ∈ obs, Resource.obs o ∈ resources := by
  cases hsub : args.subjectId with
  | some sid =>
      simp only [process, hvcf, hsub] at hproc
      split at hproc
      · exact absurd (congrArg Prod.snd hproc) (by simp)
      next allObs hall =>
        obtain rfl := Except.ok.inj (congrArg Prod.snd hproc)
        refine ⟨[Resource.specimen _], [], _, _, allObs, rfl, rfl, rfl, ?_⟩
        intro o ho
        exact List.mem_append_right _ (List.mem_map_of_mem _ ho)
  | none =>
      simp only [process, hvcf, hsub] at hproc
      split at hproc
      · exact absurd (congrArg Prod.snd hproc) (by simp)
      next allObs hall =>
        obtain rfl := Except.ok.inj (congrArg Prod.snd hproc)
        refine ⟨[Resource.patient _, Resource.specimen _], [], _, _, allObs, rfl, rfl, rfl, ?_⟩
        intro o ho
        exact List.mem_append_right _ (List.mem_map_of_mem _ ho)

/-- C9 (witness): the demonstration FHIR run (one short variant, one
copy-number alteration) satisfies the reference-graph invariant. -/
theorem c9_witness :
    ∃ (pre1 pre2 : List Resource) (sq : SequenceResource) (r : DiagnosticReport)
      (obs : List AnyObservation),
      demoResources =
        pre1 ++ Resource.sequenceRes sq :: pre2 ++ [Resource.report r] ++
          obs.map Resource.obs ∧
      r.result = obs.map (fun o => "Observation/" ++ o.obsId) ∧
      sq.variant = obs.map (fun o => "Observation/" ++ o.obsId) ∧
      ∀ o ∈ obs, Resource.obs o ∈ demoResources :=
  c9_reference_graph demoEnv demoIds "2026-02-03" demoPayloadFhir demoArgsFhir
    (process demoEnv demoIds "2026-02-03" demoPayloadFhir demoArgsFhir).1
    demoResources rfl rfl

/-- C10: for every short-variant record whose depth parses as an integer `d`
and allele fraction as a float `f`, the FHIR observation's VariantReadCount
display and the AD value passed into the VCF sample column are the same
integer, `round(d * f)`. -/
theorem c10_read_count_consistency (env : Env)
    (pid sid spid spn sqid oid : String) (v : ShortVariant)
    (d : Int) (f : Frac) (o : Observation) (line : String)
    (hd : pyInt? v.depth = some d) (hf : pyFloat? v.alleleFraction = some f)
    (ho : createObservation env pid sid spid spn sqid oid v = .ok o)
    (hl : vcfVariantLine env v = .ok line) :
    o.variantReadCountDisplay = toString (pyRound (fracMulInt d f)) ∧
    ∃ gv, parseHgvs env (vcfVariantName v) = .ok gv ∧
      line = vcfDataRow gv v.depth v.alleleFraction (gtOf f)
        (pyRound (fracMulInt d f)) := by
  rcases hsp : pySplit2 v.position with e | rp
  · have : createObservation env pid sid spid spn sqid oid v = .error e := by
      simp [createObservation, hsp, exceptBind_error]
    rw [this] at ho
    exact Except.noConfusion ho
  rcases hg : parseHgvs env (obsVariantName v) with e | gv
  · have := createObservation_error_resolver env pid sid spid spn sqid oid v rp e hsp hg
    rw [this] at ho
    exact Except.noConfusion ho
  rw [createObservation_eval env pid sid spid spn sqid oid v rp gv d f hsp hg hd hf] at ho
  obtain rfl := Except.ok.inj ho
  have hgv : parseHgvs env (vcfVariantName v) = .ok gv := hg
  rw [vcfVariantLine_eval env v d f gv hd hf hgv] at hl
  obtain rfl := Except.ok.inj hl
  exact ⟨rfl, gv, hgv, rfl⟩

/-- C10 (witness): for the demonstration record (depth 100, allele fraction
0.25) both outputs carry `round(100 * 0.25) = 25`. -/
theorem c10_witness :
    demoObs.variantReadCountDisplay = toString (pyRound (fracMulInt 100 ⟨25, 100⟩)) ∧
    ∃ gv, parseHgvs demoEnv (vcfVariantName demoShortVariant) = .ok gv ∧
      demoLine = vcfDataRow gv demoShortVariant.depth demoShortVariant.alleleFraction
        (gtOf ⟨25, 100⟩) (pyRound (fracMulInt 100 ⟨25, 100⟩)) :=
  c10_read_count_consistency demoEnv "proj" "SUBJ" "SPEC" "SAMPLE-1" "SEQ" "OID"
    demoShortVariant 100 ⟨25, 100⟩ demoObs demoLine rfl rfl rfl rfl

end Convert
